import Mathlib

/-!
# Verification of the minecraft-dashboard presence/session engine

Shallow embedding of the event-ingestion and session-statistics code
(`db_service.py`, `log_service.py`, `stats_service.py`, `app.py`) of the
minecraft-dashboard repository, together with proofs about the spec's claims.

Modelling conventions:
* UTC instants are modelled as `Int` seconds since the epoch.  Python's
  floor division `//` is `Int.fdiv` and `%` is `Int.fmod`.
* SQLite tables are modelled as Lean lists of row structures, in rowid
  (insertion) order; `AUTOINCREMENT` ids are modelled as the row count at
  insertion time (rows are never deleted by any modelled operation).
* Python's `list.sort` / SQL `ORDER BY` are modelled with the stable
  `List.insertionSort`: any stable sort produces the same output list, so
  this is semantically faithful to CPython's stable Timsort.  SQLite leaves
  the order of `ORDER BY` ties unspecified; the stable order is one
  admissible refinement and no theorem below depends on tie order.
-/

namespace MCDash

/-- Kind of a player event (`event_type ∈ {join, leave}` in the spec's
persisted-state contract). -/
inductive EventKind where
  | join
  | leave
deriving DecidableEq

/-- A row of the `player_events` table (spec §6 persisted state:
`(id, player_name, event_type, event_time)`). -/
structure EventRow where
  id : Nat
  player_name : String
  event_type : EventKind
  event_time : Int
deriving DecidableEq

/-- Does the store already contain a row with this
`(player_name, event_type, event_time)` triple?  This is the uniqueness
check of the store's unique index. -/
def hasEvent (rows : List EventRow) (e : String × EventKind × Int) : Bool :=
  rows.any fun r =>
    r.player_name == e.1 && r.event_type == e.2.1 && r.event_time == e.2.2

/-- Insert a single event row, enforcing the unique index: a duplicate
`(player, kind, timestamp)` triple is silently dropped and counts as 0
inserted rows. -/
def insertOne (rows : List EventRow) (e : String × EventKind × Int) :
    List EventRow × Nat :=
  if hasEvent rows e then (rows, 0)
  else (rows ++ [⟨rows.length, e.1, e.2.1, e.2.2⟩], 1)

/-- Modelled from the spec: `db_service.insert_events_sync` is called from
`log_service._poll_logs_sync` (src/log_service.py line 78) but its definition
is not under src/.  Per spec §4.3 it is `insert_batch(events) -> count_inserted`:
each event row's `(player, kind, timestamp)` uniqueness is enforced by the
store itself, a duplicate triple is silently dropped (not an error), and the
returned count reflects only genuinely new rows.
`insertStep` is the per-event accumulator step of the batch fold. -/
def insertStep (acc : List EventRow × Nat) (e : String × EventKind × Int) :
    List EventRow × Nat :=
  let s := insertOne acc.1 e
  (s.1, acc.2 + s.2)

/-- Modelled from the spec: the batch insert itself, see `insertStep`. -/
def insert_events_sync (rows : List EventRow)
    (batch : List (String × EventKind × Int)) : List EventRow × Nat :=
  batch.foldl insertStep (rows, 0)

/-- A row of the `player_sessions` table created by
`db_service._init_db_sync`: `(id, player_name, joined_at, left_at,
duration_seconds)`; `left_at = none` means the session is still open. -/
structure SessionRow where
  id : Nat
  player_name : String
  joined_at : Int
  left_at : Option Int
  duration_seconds : Option Int
deriving DecidableEq

/-- `db_service._record_join_sync`: INSERT a new session row with the given
player and join timestamp, `left_at = NULL`, `duration_seconds = NULL`. -/
def record_join_sync (rows : List SessionRow) (player_name : String)
    (timestamp : Int) : List SessionRow :=
  rows ++ [⟨rows.length, player_name, timestamp, none, none⟩]

/-- The open (`left_at IS NULL`) sessions of one player, in rowid order. -/
def openRows (rows : List SessionRow) (player_name : String) :
    List SessionRow :=
  rows.filter fun r => r.player_name == player_name && r.left_at.isNone

/-- The row selected by `ORDER BY joined_at DESC LIMIT 1`: the row with the
largest `joined_at` (the first such row in rowid order if several tie;
SQLite leaves the tie unspecified and no theorem below depends on it). -/
def pickLatest (rows : List SessionRow) : Option SessionRow :=
  rows.foldl (fun acc r =>
    match acc with
    | none => some r
    | some b => if b.joined_at < r.joined_at then some r else some b) none

/-- `db_service._record_leave_sync`: find the most recent open session of the
player; if none exists, do nothing (a warning is printed); otherwise UPDATE
that row in place, setting `left_at` to the leave timestamp and
`duration_seconds` to leave minus join. -/
def record_leave_sync (rows : List SessionRow) (player_name : String)
    (timestamp : Int) : List SessionRow :=
  match pickLatest (openRows rows player_name) with
  | none => rows
  | some s =>
      rows.map fun r =>
        if r.id == s.id then
          { r with left_at := some timestamp,
                   duration_seconds := some (timestamp - s.joined_at) }
        else r

/-- `db_service._close_orphaned_sessions_sync`: every row with
`left_at IS NULL` is UPDATEd in place to `left_at = joined_at`,
`duration_seconds = 0`; all other rows are untouched. -/
def close_orphaned_sessions_sync (rows : List SessionRow) : List SessionRow :=
  rows.map fun r =>
    if r.left_at.isNone then
      { r with left_at := some r.joined_at, duration_seconds := some 0 }
    else r

/-- The CASE expression of `_get_today_stats_sync`'s SUM: an open session
contributes `now - joined_at`, a closed one its stored `duration_seconds`
(`none` models SQL NULL, which SUM skips). -/
def sessionContribution (now : Int) (r : SessionRow) : Option Int :=
  match r.left_at with
  | none => some (now - r.joined_at)
  | some _ => r.duration_seconds

/-- Total playtime of a group of rows.  SQL `SUM` ignores NULL inputs and
yields NULL when all inputs are NULL; the Python caller then maps a NULL
(or zero) sum to 0, so the combined effect is summing each contribution
with NULL read as 0. -/
def playtimeOf (now : Int) (rs : List SessionRow) : Int :=
  (rs.map fun r => (sessionContribution now r).getD 0).sum

/-- `db_service._format_duration`: seconds to `"Xs"` / `"Xm"` / `"Xh"` /
`"Xh Ym"`.  Python `//` is floor division (`Int.fdiv`), `%` is `Int.fmod`. -/
def format_duration (seconds : Int) : String :=
  if seconds < 60 then toString seconds ++ "s"
  else
    let minutes := seconds.fdiv 60
    if minutes < 60 then toString minutes ++ "m"
    else
      let hours := minutes.fdiv 60
      let remaining_minutes := minutes.fmod 60
      if remaining_minutes = 0 then toString hours ++ "h"
      else toString hours ++ "h " ++ toString remaining_minutes ++ "m"

/-- One element of the `players` list returned by
`_get_today_stats_sync`. -/
structure PlayerEntry where
  name : String
  total_playtime_seconds : Int
  total_playtime_formatted : String
  session_count : Nat
  currently_online : Bool
deriving DecidableEq

/-- The result of `_get_today_stats_sync` (the `date`/`timezone` strings,
which only echo the wall clock, are omitted; the UTC window start
`midnight_utc` and the instant `now` are explicit parameters). -/
structure TodayStats where
  players : List PlayerEntry
  unique_players : Nat
  total_playtime_seconds : Int
  total_sessions : Nat
deriving DecidableEq

/-- Distinct player names of a row list in first-occurrence order
(the groups of SQL `GROUP BY player_name`). -/
def distinctNames (rows : List SessionRow) : List String :=
  rows.foldl (fun acc r =>
    if r.player_name ∈ acc then acc else acc ++ [r.player_name]) []

/-- The `currently_online` membership test of `_get_today_stats_sync`: the
player has some open session row, over ALL rows (the online query has no
window condition). -/
def currentlyOnline (rows : List SessionRow) (player_name : String) : Bool :=
  rows.any fun r => r.player_name == player_name && r.left_at.isNone

/-- `db_service._get_today_stats_sync`: group the rows with
`joined_at >= midnight_utc` by player, count sessions and sum playtime per
player, order by total playtime descending, and attach the (global, not
window-bounded) `currently_online` flag. -/
def get_today_stats_sync (rows : List SessionRow) (midnight_utc now : Int) :
    TodayStats :=
  let today := rows.filter fun r => midnight_utc ≤ r.joined_at
  let agg := (distinctNames today).map fun n =>
    let rs := today.filter fun r => r.player_name == n
    (n, rs.length, playtimeOf now rs)
  let sortedAgg :=
    agg.insertionSort fun a b => b.2.2 ≤ a.2.2
  let players := sortedAgg.map fun p =>
    { name := p.1
      total_playtime_seconds := p.2.2
      total_playtime_formatted := format_duration p.2.2
      session_count := p.2.1
      currently_online := currentlyOnline rows p.1 : PlayerEntry }
  { players := players
    unique_players := players.length
    total_playtime_seconds := (players.map (·.total_playtime_seconds)).sum
    total_sessions := (players.map (·.session_count)).sum }

/-- An abstract event history: the order in which `record_join` /
`record_leave` are invoked on the session store (the event's time is the
parsed log timestamp). -/
inductive PlayerOp where
  | join (name : String) (t : Int)
  | leave (name : String) (t : Int)
deriving DecidableEq

/-- Apply one history operation to the session table. -/
def applyOp (rows : List SessionRow) : PlayerOp → List SessionRow
  | .join n t => record_join_sync rows n t
  | .leave n t => record_leave_sync rows n t

/-- Replay a whole history onto an empty session table. -/
def applyOps (ops : List PlayerOp) : List SessionRow :=
  ops.foldl applyOp []

/-- The player's most recent event by event time, ties broken by insertion
order (a later list element wins); `some (t, true)` means the latest event
is a Join at time `t`. -/
def lastEvent (ops : List PlayerOp) (name : String) : Option (Int × Bool) :=
  ops.foldl (fun acc op =>
    match op with
    | .join n t =>
        if n == name then
          match acc with
          | none => some (t, true)
          | some b => if b.1 ≤ t then some (t, true) else acc
        else acc
    | .leave n t =>
        if n == name then
          match acc with
          | none => some (t, false)
          | some b => if b.1 ≤ t then some (t, false) else acc
        else acc) none

/-- "The player's most recent event by event time is a Join". -/
def lastEventIsJoin (ops : List PlayerOp) (name : String) : Bool :=
  match lastEvent ops name with
  | some (_, b) => b
  | none => false

/-- The remote environment one tick of `log_service._poll_logs_sync` sees:
`size` is the result of the `wc -c` size query (`none` = connection /
command failure, which raises), `readOk` is whether the `tail -c +N` read
succeeds, `insertOk` is whether `db_service.insert_events_sync` succeeds. -/
structure PollEnv where
  size : Option Nat
  readOk : Bool
  insertOk : Bool
deriving DecidableEq

/-- One tick of `log_service._poll_logs_sync` acting on the tracker state
`last` (= `self._last_size`).  Returns the state after the tick and the
half-open byte range `[lo, hi)` of the remote file that was read and handed
to the parser (`none` when nothing was read).  Control flow mirrors the
source: a raised exception is caught by the enclosing `try`, so the state at
the point of the raise is the state after the tick; note that
`self._last_size = current_size` executes before the store insert, so an
insert failure does not roll the offset back. -/
def poll_logs_sync (env : PollEnv) (last : Nat) : Nat × Option (Nat × Nat) :=
  match env.size with
  | none => (last, none)
  | some S =>
      if S = 0 then (last, none)
      else
        let last1 := if S < last then 0 else last
        if S = last1 then (last1, none)
        else if env.readOk then (S, some (last1, S)) else (last1, none)

/-- Did this tick take the rotation/truncation branch
(`current_size < self._last_size`, after the `current_size == 0` guard)? -/
def detectTrunc (env : PollEnv) (last : Nat) : Bool :=
  match env.size with
  | some S => decide (S ≠ 0 ∧ S < last)
  | none => false

/-- The tick failed somewhere (connection/size query, read, or store). -/
def pollFailed (env : PollEnv) : Prop :=
  env.size = none ∨ env.readOk = false ∨ env.insertOk = false

/-- Tracker state after a sequence of ticks. -/
def runState (last : Nat) (es : List PollEnv) : Nat :=
  es.foldl (fun s e => (poll_logs_sync e s).1) last

/-- No tick of the run takes the truncation branch, starting from state
`last`. -/
def noTruncRun (last : Nat) : List PollEnv → Prop
  | [] => True
  | e :: es => detectTrunc e last = false ∧ noTruncRun (poll_logs_sync e last).1 es

/-- `log_service._resolve_time`: combine a bare `HH:MM:SS` with the date
component of the reference instant; if the candidate is more than one hour
after the reference, subtract one day.  Instants are whole seconds; the
comparison `event_time > reference + 1h` factors through the second floor
of the reference because the candidate is a whole second. -/
def resolve_time (h m s : Nat) (reference : Int) : Int :=
  let dayStart := 86400 * reference.fdiv 86400
  let candidate := dayStart + ((3600 * h + 60 * m + s : Nat) : Int)
  if reference + 3600 < candidate then candidate - 86400 else candidate

/-- Per-player statistics held in `stats_service`'s cache
(`player_stats` values built by `_read_player_stats_sync`). -/
structure PlayerStats where
  blocks_mined : Int
  distance_cm : Int
  play_time_seconds : Int
deriving DecidableEq

/-- One leaderboard element: `{"name", "value", "formatted"}`. -/
structure LBEntry where
  name : String
  value : Int
  formatted : String
deriving DecidableEq

/-- Result of `stats_service.get_leaderboards` (the `last_updated` /
`stale` cache echoes are omitted). -/
structure Leaderboards where
  playtime : List LBEntry
  blocks : List LBEntry
  distance : List LBEntry
deriving DecidableEq

/-- `stats_service._format_playtime` (same code as
`db_service._format_duration`). -/
def format_playtime (seconds : Int) : String :=
  if seconds < 60 then toString seconds ++ "s"
  else
    let minutes := seconds.fdiv 60
    if minutes < 60 then toString minutes ++ "m"
    else
      let hours := minutes.fdiv 60
      let remaining_minutes := minutes.fmod 60
      if remaining_minutes = 0 then toString hours ++ "h"
      else toString hours ++ "h " ++ toString remaining_minutes ++ "m"

/-- Digit grouping of `f"{n:,}"`: commas every three digits from the right
(input and output are reversed digit lists). -/
def groupDigits : List Char → List Char
  | c1 :: c2 :: c3 :: c4 :: rest => c1 :: c2 :: c3 :: ',' :: groupDigits (c4 :: rest)
  | l => l

/-- Python's `f"{n:,}"` for an int. -/
def format_blocks (n : Int) : String :=
  let digits := (toString n.natAbs).toList.reverse
  let grouped := String.mk (groupDigits digits).reverse
  if n < 0 then "-" ++ grouped else grouped

/-- `stats_service._format_distance`: `f"{cm/100000:.1f} km"`.  The source
divides in binary floating point and rounds half-to-even to one decimal;
this model rounds the exact rational `cm/10000` (tenths of a kilometre)
half-to-even, which agrees except on inputs where the double rounding of
the quotient crosses a .05 boundary.  No claim depends on this string. -/
def format_distance (cm : Int) : String :=
  let q := cm.fdiv 10000
  let r := cm.fmod 10000
  let tenths :=
    if 2 * r < 10000 then q
    else if 10000 < 2 * r then q + 1
    else if q.fmod 2 = 0 then q else q + 1
  let sign := if tenths < 0 then "-" else ""
  sign ++ toString (tenths.natAbs / 10) ++ "." ++ toString (tenths.natAbs % 10) ++ " km"

/-- `stats_service.get_leaderboards`: build the three per-metric entry lists
from the cached `player_stats` (in cache iteration order), including a
player in the playtime list only when `play_time_seconds > 0`; sort each
list by value descending (stable) and keep the top 10. -/
def get_leaderboards (player_stats : List (String × PlayerStats)) :
    Leaderboards :=
  let playtime := (player_stats.filter fun p => 0 < p.2.play_time_seconds).map
    fun p => ⟨p.1, p.2.play_time_seconds, format_playtime p.2.play_time_seconds⟩
  let blocks := player_stats.map
    fun p => ⟨p.1, p.2.blocks_mined, format_blocks p.2.blocks_mined⟩
  let distance := player_stats.map
    fun p => ⟨p.1, p.2.distance_cm, format_distance p.2.distance_cm⟩
  { playtime := (playtime.insertionSort fun a b => b.value ≤ a.value).take 10
    blocks := (blocks.insertionSort fun a b => b.value ≤ a.value).take 10
    distance := (distance.insertionSort fun a b => b.value ≤ a.value).take 10 }

/-- SQLite's `LOWER`: folds only ASCII `A`-`Z` (player names match
`[A-Za-z0-9_]{3,16}` anyway). -/
def sqliteLower (s : String) : String :=
  String.mk (s.toList.map fun c =>
    if 'A' ≤ c && c ≤ 'Z' then Char.ofNat (c.toNat + 32) else c)

/-- The query of `app.debug_player_events` (`GET /api/debug/events/{player}`):
rows of `player_events` with `LOWER(player_name) = LOWER(?)`, ordered by
`event_time DESC`, `LIMIT 100`. -/
def debug_player_events (rows : List EventRow) (player_name : String) :
    List EventRow :=
  (((rows.filter fun r => sqliteLower r.player_name == sqliteLower player_name)
    |>.insertionSort fun a b => b.event_time ≤ a.event_time).take 100)

/-! ## Lemmas about the event store's idempotent batch insert -/

theorem hasEvent_insertOne (rows : List EventRow) (e e' : String × EventKind × Int)
    (h : hasEvent rows e' = true) : hasEvent (insertOne rows e).1 e' = true := by
  unfold insertOne
  split
  · exact h
  · simp only [hasEvent, List.any_append] at h ⊢
    simp [h]

theorem insertOne_hasEvent_self (rows : List EventRow)
    (e : String × EventKind × Int) : hasEvent (insertOne rows e).1 e = true := by
  unfold insertOne
  split
  · assumption
  · simp [hasEvent, List.any_append]

theorem insertOne_of_hasEvent (rows : List EventRow)
    (e : String × EventKind × Int) (h : hasEvent rows e = true) :
    insertOne rows e = (rows, 0) := by
  simp [insertOne, h]

theorem insertOne_length (rows : List EventRow) (e : String × EventKind × Int) :
    (insertOne rows e).1.length = rows.length + (insertOne rows e).2 := by
  unfold insertOne
  split <;> simp

theorem foldl_insertStep_hasEvent (batch : List (String × EventKind × Int)) :
    ∀ (acc : List EventRow × Nat) (e' : String × EventKind × Int),
      hasEvent acc.1 e' = true → hasEvent (batch.foldl insertStep acc).1 e' = true := by
  induction batch with
  | nil => intro acc e' h; exact h
  | cons b bs ih =>
      intro acc e' h
      exact ih _ e' (hasEvent_insertOne acc.1 b e' h)

theorem foldl_insertStep_mem (batch : List (String × EventKind × Int)) :
    ∀ (acc : List EventRow × Nat) (e : String × EventKind × Int),
      e ∈ batch → hasEvent (batch.foldl insertStep acc).1 e = true := by
  induction batch with
  | nil => intro acc e h; cases h
  | cons b bs ih =>
      intro acc e h
      rcases List.mem_cons.mp h with rfl | h
      · exact foldl_insertStep_hasEvent bs _ e (insertOne_hasEvent_self acc.1 e)
      · exact ih _ e h

theorem foldl_insertStep_noop (batch : List (String × EventKind × Int)) :
    ∀ (rows : List EventRow) (c : Nat),
      (∀ e ∈ batch, hasEvent rows e = true) →
      batch.foldl insertStep (rows, c) = (rows, c) := by
  induction batch with
  | nil => intro rows c _; rfl
  | cons b bs ih =>
      intro rows c h
      have hb : insertOne rows b = (rows, 0) :=
        insertOne_of_hasEvent rows b (h b (List.mem_cons_self b bs))
      show bs.foldl insertStep (insertStep (rows, c) b) = (rows, c)
      simp only [insertStep, hb]
      exact ih rows c fun e he => h e (List.mem_cons_of_mem b he)

theorem foldl_insertStep_length (batch : List (String × EventKind × Int)) :
    ∀ (acc : List EventRow × Nat),
      (batch.foldl insertStep acc).1.length + acc.2 =
        acc.1.length + (batch.foldl insertStep acc).2 := by
  induction batch with
  | nil => intro acc; simp
  | cons b bs ih =>
      intro acc
      have h1 := insertOne_length acc.1 b
      have h2 := ih (insertStep acc b)
      simp only [List.foldl_cons]
      simp only [insertStep] at h2 ⊢
      omega

/-- C1: Ingestion is idempotent under replay.  For every store state and
every batch of `(player, kind, timestamp)` events, inserting the batch a
second time leaves the store unchanged (hence the same total row count as
after one insert), each duplicate triple is silently dropped (the insert is
a total function returning a count, not an error), and the returned
inserted-count reflects only genuinely new rows: the first insert grows the
store by exactly its returned count and the replay returns count 0. -/
theorem c1_idempotent_ingestion (rows : List EventRow)
    (batch : List (String × EventKind × Int)) :
    (insert_events_sync (insert_events_sync rows batch).1 batch).1 =
        (insert_events_sync rows batch).1 ∧
      (insert_events_sync (insert_events_sync rows batch).1 batch).2 = 0 ∧
      (insert_events_sync rows batch).1.length =
        rows.length + (insert_events_sync rows batch).2 := by
  have hall : ∀ e ∈ batch, hasEvent (insert_events_sync rows batch).1 e = true :=
    fun e he => foldl_insertStep_mem batch (rows, 0) e he
  have hno : insert_events_sync (insert_events_sync rows batch).1 batch =
      ((insert_events_sync rows batch).1, 0) :=
    foldl_insertStep_noop batch (insert_events_sync rows batch).1 0 hall
  have hlen := foldl_insertStep_length batch (rows, 0)
  refine ⟨by rw [hno], by rw [hno], ?_⟩
  simpa using hlen

/-! ## Claim C2: row immutability -/

/-- C2 counterexample: on a table holding one open session for player "A",
`_record_leave_sync` produces a table with the same row count that differs
from the original, i.e. it UPDATEs an existing row in place instead of
appending — refuting "no existing row of the persisted table is ever
updated; the only write ever performed is appending a new row". -/
theorem c2_counterexample :
    (record_leave_sync [⟨0, "A", 0, none, none⟩] "A" 5).length = 1 ∧
      record_leave_sync [⟨0, "A", 0, none, none⟩] "A" 5 ≠
        [⟨0, "A", 0, none, none⟩] := by
  decide

/-- C2 (amended): no operation ever deletes a row or changes a row's
identity fields (`id`, `player_name`, `joined_at`), and `record_join` only
appends; however `record_leave` and the startup orphan cleanup do UPDATE
existing rows in place (their `left_at` / `duration_seconds` fields), so
rows are not immutable. -/
theorem c2_rows_never_deleted :
    (∀ (rows : List SessionRow) (n : String) (t : Int),
        record_join_sync rows n t = rows ++ [⟨rows.length, n, t, none, none⟩]) ∧
      (∀ (rows : List SessionRow) (n : String) (t : Int),
        (record_leave_sync rows n t).map (fun r => (r.id, r.player_name, r.joined_at)) =
          rows.map fun r => (r.id, r.player_name, r.joined_at)) ∧
      (∀ rows : List SessionRow,
        (close_orphaned_sessions_sync rows).map (fun r => (r.id, r.player_name, r.joined_at)) =
          rows.map fun r => (r.id, r.player_name, r.joined_at)) := by
  refine ⟨fun rows n t => rfl, fun rows n t => ?_, fun rows => ?_⟩
  · unfold record_leave_sync
    cases pickLatest (openRows rows n) with
    | none => rfl
    | some s =>
        rw [List.map_map]
        apply List.map_congr_left
        intro r _
        show (fun r => (r.id, r.player_name, r.joined_at))
            (if r.id == s.id then _ else r) = _
        split <;> rfl
  · unfold close_orphaned_sessions_sync
    rw [List.map_map]
    apply List.map_congr_left
    intro r _
    show (fun r => (r.id, r.player_name, r.joined_at))
        (if r.left_at.isNone then _ else r) = _
    split <;> rfl

/-! ## Claim C10: orphaned sessions are closed with zero duration -/

/-- C10: the startup cleanup leaves no open row: every open
(`left_at IS NULL`) row is closed in place with `left_at = joined_at` and
`duration_seconds = 0` — so its contribution to any subsequently derived
playtime statistic (the CASE expression of the stats query) is exactly 0 —
and every already-closed row is kept untouched. -/
theorem c10_orphans_closed (rows : List SessionRow) (now : Int) :
    (∀ r ∈ close_orphaned_sessions_sync rows, r.left_at ≠ none) ∧
      (∀ r ∈ rows, r.left_at = none →
        ({ r with left_at := some r.joined_at, duration_seconds := some 0 } : SessionRow) ∈
            close_orphaned_sessions_sync rows ∧
          sessionContribution now
            { r with left_at := some r.joined_at, duration_seconds := some 0 } = some 0) ∧
      (∀ r ∈ rows, r.left_at ≠ none → r ∈ close_orphaned_sessions_sync rows) := by
  refine ⟨?_, ?_, ?_⟩
  · intro r hr
    rcases List.mem_map.mp hr with ⟨a, _, rfl⟩
    cases h : a.left_at <;> simp [h]
  · intro r hr hopen
    refine ⟨List.mem_map.mpr ⟨r, hr, by simp [hopen]⟩, rfl⟩
  · intro r hr hclosed
    apply List.mem_map.mpr
    refine ⟨r, hr, ?_⟩
    cases h : r.left_at with
    | none => exact absurd h hclosed
    | some v => simp [h]

/-- C10 witness: on a concrete table with one orphaned and one closed row,
the cleanup closes the orphan with zero duration and keeps the closed row. -/
theorem c10_witness :
    (∀ r ∈ close_orphaned_sessions_sync
        [⟨0, "A", 3, none, none⟩, ⟨1, "B", 4, some 9, some 5⟩], r.left_at ≠ none) ∧
      (⟨0, "A", 3, some 3, some 0⟩ : SessionRow) ∈
        close_orphaned_sessions_sync
          [⟨0, "A", 3, none, none⟩, ⟨1, "B", 4, some 9, some 5⟩] ∧
      sessionContribution 100 (⟨0, "A", 3, some 3, some 0⟩ : SessionRow) = some 0 ∧
      (⟨1, "B", 4, some 9, some 5⟩ : SessionRow) ∈
        close_orphaned_sessions_sync
          [⟨0, "A", 3, none, none⟩, ⟨1, "B", 4, some 9, some 5⟩] := by
  have h := c10_orphans_closed
    [⟨0, "A", 3, none, none⟩, ⟨1, "B", 4, some 9, some 5⟩] 100
  have h1 := h.2.1 ⟨0, "A", 3, none, none⟩ (by decide) rfl
  refine ⟨h.1, h1.1, h1.2, ?_⟩
  exact h.2.2 ⟨1, "B", 4, some 9, some 5⟩ (by decide) (by decide)

/-! ## Claim C7: failed ingestion ticks -/

/-- C7 counterexample: a poll in which the remote size query (20 bytes) and
the read succeed but storing the parsed events fails is a failing tick, yet
the tracker's remembered offset ends at 20, not at its pre-poll value 10 —
the source updates `self._last_size = current_size` before calling
`insert_events_sync`, so a storage failure does not leave the state
unchanged. -/
theorem c7_counterexample :
    pollFailed ⟨some 20, true, false⟩ ∧
      (poll_logs_sync ⟨some 20, true, false⟩ 10).1 = 20 ∧
      (poll_logs_sync ⟨some 20, true, false⟩ 10).1 ≠ 10 := by
  exact ⟨Or.inr (Or.inr rfl), by decide, by decide⟩

/-- C7 (amended): no failure escapes the tick (the poll is a total
function).  A remote connection / size-query failure leaves the tracker
state unchanged and delivers nothing, and so does a read failure when no
truncation was detected; the store-failure flag never influences the
resulting tracker state (the offset is committed before the insert, so a
storage failure skips the tick with the offset already advanced). -/
theorem c7_failure_containment :
    (∀ (env : PollEnv) (last : Nat), env.size = none →
        poll_logs_sync env last = (last, none)) ∧
      (∀ (env : PollEnv) (last : Nat) (S : Nat), env.size = some S →
        env.readOk = false → detectTrunc env last = false →
        poll_logs_sync env last = (last, none)) ∧
      (∀ (size : Option Nat) (last : Nat) (r i i' : Bool),
        (poll_logs_sync ⟨size, r, i⟩ last).1 =
          (poll_logs_sync ⟨size, r, i'⟩ last).1) := by
  refine ⟨?_, ?_, ?_⟩
  · intro env last h
    unfold poll_logs_sync
    rw [h]
  · intro env last S hS hro hdt
    unfold poll_logs_sync
    rw [hS]
    unfold detectTrunc at hdt
    rw [hS] at hdt
    simp only [decide_eq_false_iff_not, not_and, not_lt, ne_eq] at hdt
    by_cases h0 : S = 0
    · simp [h0]
    · have hSlast : ¬ S < last := Nat.not_lt.mpr (hdt h0)
      simp only [if_neg h0, if_neg hSlast]
      by_cases hEq : S = last
      · simp [hEq]
      · simp [hEq, hro]
  · intro size last r i i'
    cases size with
    | none => rfl
    | some S => rfl

/-- C7 witness: concrete failing ticks covered by the amended claim: a
connection failure at state 7 and a read failure at state 7 with remote
size 9 (no truncation) both leave the state at 7 and deliver nothing. -/
theorem c7_witness :
    poll_logs_sync ⟨none, true, true⟩ 7 = (7, none) ∧
      poll_logs_sync ⟨some 9, false, true⟩ 7 = (7, none) := by
  exact ⟨c7_failure_containment.1 ⟨none, true, true⟩ 7 rfl,
    c7_failure_containment.2.1 ⟨some 9, false, true⟩ 7 9 rfl rfl (by decide)⟩

/-! ## Claim C6: timestamp resolution -/

/-- C6: `_resolve_time` combines the bare `HH:MM:SS` with the date
component of the reference instant and subtracts one day exactly when the
candidate is more than one hour after the reference: the result always
carries the requested time of day, never lies more than one hour after the
reference, and falls on the reference's calendar day or the day before.
In particular a bare `23:59:59` resolved against a reference of `00:00:30`
on any day `d` lands on day `d - 1` (the previous calendar day) at
23:59:59. -/
theorem c6_resolve_time :
    (∀ (h m s : Nat) (reference : Int), h < 24 → m < 60 → s < 60 →
        (resolve_time h m s reference).emod 86400 = 3600 * h + 60 * m + s ∧
          resolve_time h m s reference ≤ reference + 3600 ∧
          ((resolve_time h m s reference).fdiv 86400 = reference.fdiv 86400 ∨
            (resolve_time h m s reference).fdiv 86400 = reference.fdiv 86400 - 1)) ∧
      (∀ d : Int, resolve_time 23 59 59 (86400 * d + 30) =
        86400 * (d - 1) + 86399) := by
  have hediv : ∀ a : Int, a.fdiv 86400 = a / 86400 :=
    fun a => Int.fdiv_eq_ediv a (by norm_num)
  have hemod : ∀ a : Int, a.emod 86400 = a % 86400 := fun a => rfl
  constructor
  · intro h m s reference hh hm hs
    unfold resolve_time
    dsimp only
    simp only [hediv, hemod]
    have hcast : ((3600 * h + 60 * m + s : Nat) : Int) =
        3600 * (h : Int) + 60 * (m : Int) + (s : Int) := by push_cast; ring
    rw [hcast]
    have hh' : (h : Int) < 24 := by exact_mod_cast hh
    have hm' : (m : Int) < 60 := by exact_mod_cast hm
    have hs' : (s : Int) < 60 := by exact_mod_cast hs
    have hh0 : (0 : Int) ≤ (h : Int) := Int.natCast_nonneg h
    have hm0 : (0 : Int) ≤ (m : Int) := Int.natCast_nonneg m
    have hs0 : (0 : Int) ≤ (s : Int) := Int.natCast_nonneg s
    split
    · refine ⟨by omega, by omega, by omega⟩
    · refine ⟨by omega, by omega, by omega⟩
  · intro d
    unfold resolve_time
    dsimp only
    simp only [hediv]
    split <;> omega

/-- C6 witness: the hypotheses hold at `23:59:59` against reference
instant 86430 (day 1 at 00:00:30): the resolved instant 86399 is
23:59:59 of day 0, the previous calendar day. -/
theorem c6_witness :
    23 < 24 ∧ 59 < 60 ∧
      resolve_time 23 59 59 86430 = 86399 ∧
      (resolve_time 23 59 59 86430).emod 86400 = 3600 * 23 + 60 * 59 + 59 ∧
      resolve_time 23 59 59 86430 ≤ 86430 + 3600 ∧
      ((resolve_time 23 59 59 86430).fdiv 86400 = (86430 : Int).fdiv 86400 ∨
        (resolve_time 23 59 59 86430).fdiv 86400 = (86430 : Int).fdiv 86400 - 1) := by
  have h := c6_resolve_time.1 23 59 59 86430 (by decide) (by decide) (by decide)
  exact ⟨by decide, by decide, by decide, h.1, h.2.1, h.2.2⟩

/-! ## Claim C4: the currently_online flag -/

/-- C4 counterexample: for the history Join(A,1), Join(A,2), Leave(A,3) the
most recent event of A by event time is a Leave, yet the stats query
reports A as currently online — the code's flag is "some session row is
still open" (the leave only closed the session opened at t=2, leaving the
t=1 row open), not "the most recent event is a Join". -/
theorem c4_counterexample :
    currentlyOnline (applyOps [.join "A" 1, .join "A" 2, .leave "A" 3]) "A" = true ∧
      lastEventIsJoin [.join "A" 1, .join "A" 2, .leave "A" 3] "A" = false := by
  decide

/-- C4 (amended): the `currently_online` flag reported for a player by the
today-stats query is true iff that player has at least one session row with
`left_at` NULL (a join not yet matched by a recorded leave), and it is
computed over all rows of the table, not restricted to the query window
(the right-hand side does not mention `midnight_utc`). -/
theorem c4_online_iff_open_row (rows : List SessionRow)
    (midnight_utc now : Int) (entry : PlayerEntry)
    (hmem : entry ∈ (get_today_stats_sync rows midnight_utc now).players) :
    entry.currently_online = true ↔
      ∃ r ∈ rows, r.player_name = entry.name ∧ r.left_at = none := by
  unfold get_today_stats_sync at hmem
  dsimp only at hmem
  rcases List.mem_map.mp hmem with ⟨p, _, rfl⟩
  simp [currentlyOnline, List.any_eq_true, Option.isNone_iff_eq_none]

/-- C4 witness: on a one-row table with an open session for "A", the entry
reported for "A" is online, and the amended equivalence applies to it. -/
theorem c4_witness :
    (⟨"A", 10, "10s", 1, true⟩ : PlayerEntry) ∈
        (get_today_stats_sync [⟨0, "A", 0, none, none⟩] 0 10).players ∧
      ((⟨"A", 10, "10s", 1, true⟩ : PlayerEntry).currently_online = true ↔
        ∃ r ∈ [(⟨0, "A", 0, none, none⟩ : SessionRow)],
          r.player_name = "A" ∧ r.left_at = none) := by
  refine ⟨by decide, ?_⟩
  exact c4_online_iff_open_row [⟨0, "A", 0, none, none⟩] 0 10
    ⟨"A", 10, "10s", 1, true⟩ (by decide)

/-! ## Claim C3: session reconstruction -/

/-- C3: for a store built from exactly the events Join(A,t0), Leave(A,t1),
Join(A,t2) with t0 < t1 < t2 < now and a query window starting at or
before t0, the derivation reports exactly one player A with session count 2
and total playtime (t1 - t0) + (now - t2) — the closed session of duration
t1 - t0 plus the open session of duration now - t2 — and A is reported as
currently online. -/
theorem c3_session_reconstruction (t0 t1 t2 midnight_utc now : Int)
    (h01 : t0 < t1) (h12 : t1 < t2) (h2n : t2 < now) (hw : midnight_utc ≤ t0) :
    get_today_stats_sync
        (applyOps [.join "A" t0, .leave "A" t1, .join "A" t2]) midnight_utc now =
      { players := [⟨"A", (t1 - t0) + (now - t2),
          format_duration ((t1 - t0) + (now - t2)), 2, true⟩]
        unique_players := 1
        total_playtime_seconds := (t1 - t0) + (now - t2)
        total_sessions := 2 } := by
  have hrows : applyOps [.join "A" t0, .leave "A" t1, .join "A" t2] =
      [⟨0, "A", t0, some t1, some (t1 - t0)⟩, ⟨1, "A", t2, none, none⟩] := rfl
  have hd0 : decide (midnight_utc ≤ t0) = true := decide_eq_true hw
  have hd2 : decide (midnight_utc ≤ t2) = true := decide_eq_true (by omega)
  rw [hrows]
  unfold get_today_stats_sync
  dsimp only
  simp [List.filter, hd0, hd2, distinctNames, playtimeOf, sessionContribution,
    currentlyOnline, List.insertionSort, List.orderedInsert]

/-- C3 witness: the concrete instance t0 = 0, t1 = 10, t2 = 20, now = 30,
window start 0: two sessions, total playtime 20 seconds, A online. -/
theorem c3_witness :
    (0 : Int) < 10 ∧ (10 : Int) < 20 ∧ (20 : Int) < 30 ∧ (0 : Int) ≤ 0 ∧
      get_today_stats_sync
          (applyOps [.join "A" 0, .leave "A" 10, .join "A" 20]) 0 30 =
        { players := [⟨"A", 20, "20s", 2, true⟩]
          unique_players := 1
          total_playtime_seconds := 20
          total_sessions := 2 } := by
  have h := c3_session_reconstruction 0 10 20 0 30
    (by decide) (by decide) (by decide) (by decide)
  refine ⟨by decide, by decide, by decide, by decide, ?_⟩
  rw [h]
  decide

/-! ## Lemmas about the log tail tracker -/

theorem poll_state_mono (env : PollEnv) (last : Nat)
    (h : detectTrunc env last = false) : last ≤ (poll_logs_sync env last).1 := by
  obtain ⟨size, ro, io⟩ := env
  cases size with
  | none => exact Nat.le_refl last
  | some S =>
      unfold detectTrunc at h
      simp only [decide_eq_false_iff_not, not_and, not_lt, ne_eq] at h
      unfold poll_logs_sync
      dsimp only
      by_cases h0 : S = 0
      · simp [h0]
      · have hle : last ≤ S := h h0
        have hnl : ¬ S < last := Nat.not_lt.mpr hle
        simp only [if_neg h0, if_neg hnl]
        by_cases hEq : S = last
        · simp [hEq]
        · cases ro <;> simp [hEq, hle]

theorem poll_delivered (env : PollEnv) (last lo hi : Nat)
    (h : (poll_logs_sync env last).2 = some (lo, hi)) :
    hi = (poll_logs_sync env last).1 ∧ lo < hi ∧
      (detectTrunc env last = false → lo = last) := by
  obtain ⟨size, ro, io⟩ := env
  cases size with
  | none => simp [poll_logs_sync] at h
  | some S =>
      unfold poll_logs_sync at h ⊢
      dsimp only at h ⊢
      by_cases h0 : S = 0
      · simp [h0] at h
      · simp only [if_neg h0] at h ⊢
        by_cases htr : S < last
        · have hne : ¬ S = 0 := h0
          simp only [if_pos htr] at h ⊢
          by_cases hz : S = 0
          · exact absurd hz h0
          · simp only [if_neg hz] at h ⊢
            cases ro with
            | false => simp at h
            | true =>
                simp only at h
                obtain ⟨rfl, rfl⟩ : lo = 0 ∧ hi = S := by
                  simpa using h.symm
                refine ⟨rfl, Nat.pos_of_ne_zero h0, ?_⟩
                intro hdt
                unfold detectTrunc at hdt
                simp only [decide_eq_false_iff_not, not_and, not_lt, ne_eq] at hdt
                exact absurd (hdt h0) (Nat.not_le.mpr htr)
        · simp only [if_neg htr] at h ⊢
          by_cases hEq : S = last
          · simp [hEq] at h
          · simp only [if_neg hEq] at h ⊢
            cases ro with
            | false => simp at h
            | true =>
                simp only at h
                obtain ⟨rfl, rfl⟩ : lo = last ∧ hi = S := by
                  simpa using h.symm
                exact ⟨rfl, Nat.lt_of_le_of_ne (Nat.not_lt.mp htr) (Ne.symm hEq), fun _ => rfl⟩

theorem runState_mono (es : List PollEnv) :
    ∀ last : Nat, noTruncRun last es → last ≤ runState last es := by
  induction es with
  | nil => intro last _; exact Nat.le_refl last
  | cons e es ih =>
      intro last h
      exact Nat.le_trans (poll_state_mono e last h.1) (ih _ h.2)

theorem noTruncRun_append (xs ys : List PollEnv) :
    ∀ last : Nat, noTruncRun last (xs ++ ys) ↔
      noTruncRun last xs ∧ noTruncRun (runState last xs) ys := by
  induction xs with
  | nil =>
      intro last
      constructor
      · exact fun h => ⟨trivial, h⟩
      · exact fun h => h.2
  | cons x xs ih =>
      intro last
      constructor
      · rintro ⟨h1, h2⟩
        rcases (ih _).mp h2 with ⟨ha, hb⟩
        exact ⟨⟨h1, ha⟩, hb⟩
      · rintro ⟨⟨h1, ha⟩, hb⟩
        exact ⟨h1, (ih _).mpr ⟨ha, hb⟩⟩

/-! ## Claim C5: no byte range is re-delivered -/

/-- C5: across every sequence of polls, encoded as
`pre ++ [ei] ++ mid ++ [ej]` (the states threaded through `runState`), if no
poll strictly after the tick of `ei` up to and including the tick of `ej`
detects a truncation, the byte range `[lo, hi)` delivered at `ei` and the
range `[lo', hi')` delivered at `ej` are disjoint (`hi ≤ lo'`); and a tick
that does detect a truncation (current size `S` nonzero and smaller than
the remembered size) resets the offset to 0 and, when the read succeeds,
re-delivers the entire file `[0, S)`, ending with the offset at `S`. -/
theorem c5_no_redelivery :
    (∀ (init : Nat) (pre : List PollEnv) (ei : PollEnv) (mid : List PollEnv)
        (ej : PollEnv) (lo hi lo' hi' : Nat),
      noTruncRun (poll_logs_sync ei (runState init pre)).1 (mid ++ [ej]) →
      (poll_logs_sync ei (runState init pre)).2 = some (lo, hi) →
      (poll_logs_sync ej
        (runState (poll_logs_sync ei (runState init pre)).1 mid)).2 =
          some (lo', hi') →
      hi ≤ lo') ∧
      (∀ (env : PollEnv) (last S : Nat), env.size = some S → S ≠ 0 →
        S < last → env.readOk = true →
        poll_logs_sync env last = (S, some (0, S))) := by
  constructor
  · intro init pre ei mid ej lo hi lo' hi' hnt hdi hdj
    rcases (noTruncRun_append mid [ej] _).mp hnt with ⟨hmid, hj, -⟩
    have hhi : hi = (poll_logs_sync ei (runState init pre)).1 :=
      (poll_delivered ei _ lo hi hdi).1
    have hmono : (poll_logs_sync ei (runState init pre)).1 ≤
        runState (poll_logs_sync ei (runState init pre)).1 mid :=
      runState_mono mid _ hmid
    have hlo' : lo' = runState (poll_logs_sync ei (runState init pre)).1 mid :=
      (poll_delivered ej _ lo' hi' hdj).2.2 hj
    rw [hhi, hlo']
    exact hmono
  · intro env last S hS h0 hlt hro
    obtain ⟨size, ro, io⟩ := env
    cases hS
    cases hro
    unfold poll_logs_sync
    simp [h0, hlt]

/-- C5 witness: a concrete two-poll run (sizes 5 then 9, no truncation)
delivers `[0, 5)` then `[5, 9)`, which the theorem certifies disjoint; and
a concrete truncated poll (remembered offset 7, new size 3) re-delivers the
whole file `[0, 3)`. -/
theorem c5_witness :
    (poll_logs_sync ⟨some 5, true, true⟩ (runState 0 [])).2 = some (0, 5) ∧
      (poll_logs_sync ⟨some 9, true, true⟩
        (runState (poll_logs_sync ⟨some 5, true, true⟩ (runState 0 [])).1 [])).2 =
          some (5, 9) ∧
      (5 : Nat) ≤ 5 ∧
      poll_logs_sync ⟨some 3, true, true⟩ 7 = (3, some (0, 3)) := by
  refine ⟨by decide, by decide, ?_, ?_⟩
  · exact c5_no_redelivery.1 0 [] ⟨some 5, true, true⟩ [] ⟨some 9, true, true⟩
      0 5 5 9 ⟨by decide, trivial⟩ (by decide) (by decide)
  · exact c5_no_redelivery.2 ⟨some 3, true, true⟩ 7 3 rfl
      (by decide) (by decide) rfl

/-! ## Claim C8: the debug events endpoint -/

/-- C8: for every player name, the debug query returns at most 100 rows,
ordered newest first (non-increasing `event_time`), every returned row is a
stored row whose name matches case-insensitively, and any matching stored
row that is left out is only left out because the result is full (exactly
100 rows) and the omitted row is no newer than every returned row — i.e.
the endpoint returns the last 100 raw events of the player, newest
first, under case-insensitive name matching. -/
theorem c8_debug_events (rows : List EventRow) (p : String) :
    (debug_player_events rows p).length ≤ 100 ∧
      List.Sorted (fun a b : EventRow => b.event_time ≤ a.event_time)
        (debug_player_events rows p) ∧
      (∀ r ∈ debug_player_events rows p,
        r ∈ rows ∧ sqliteLower r.player_name = sqliteLower p) ∧
      (∀ r ∈ rows, sqliteLower r.player_name = sqliteLower p →
        r ∉ debug_player_events rows p →
        (debug_player_events rows p).length = 100 ∧
          ∀ r' ∈ debug_player_events rows p, r.event_time ≤ r'.event_time) := by
  haveI ht : IsTotal EventRow (fun a b => b.event_time ≤ a.event_time) :=
    ⟨fun a b => le_total b.event_time a.event_time⟩
  haveI htr : IsTrans EventRow (fun a b => b.event_time ≤ a.event_time) :=
    ⟨fun a b c h1 h2 => le_trans h2 h1⟩
  have hsorted := List.sorted_insertionSort
    (fun a b : EventRow => b.event_time ≤ a.event_time)
    (rows.filter fun r => sqliteLower r.player_name == sqliteLower p)
  refine ⟨?_, ?_, ?_, ?_⟩
  · unfold debug_player_events
    rw [List.length_take]
    exact min_le_left _ _
  · exact List.Pairwise.sublist (List.take_sublist _ _) hsorted
  · intro r hr
    have h1 : r ∈ (rows.filter fun r =>
        sqliteLower r.player_name == sqliteLower p).insertionSort
          (fun a b => b.event_time ≤ a.event_time) :=
      List.take_subset _ _ hr
    have h2 := (List.mem_insertionSort _).mp h1
    have h3 := List.mem_filter.mp h2
    exact ⟨h3.1, by simpa using h3.2⟩
  · intro r hr hmatch hnot
    have hrs : r ∈ (rows.filter fun r =>
        sqliteLower r.player_name == sqliteLower p).insertionSort
          (fun a b => b.event_time ≤ a.event_time) :=
      (List.mem_insertionSort _).mpr (List.mem_filter.mpr ⟨hr, by simp [hmatch]⟩)
    have hlen : 100 < ((rows.filter fun r =>
        sqliteLower r.player_name == sqliteLower p).insertionSort
          (fun a b => b.event_time ≤ a.event_time)).length := by
      by_contra hle
      push_neg at hle
      exact hnot (by unfold debug_player_events; rw [List.take_of_length_le hle]; exact hrs)
    constructor
    · unfold debug_player_events
      rw [List.length_take]
      exact Nat.min_eq_left (Nat.le_of_lt hlen)
    · intro r' hr'
      have hsplit := List.take_append_drop 100 ((rows.filter fun r =>
        sqliteLower r.player_name == sqliteLower p).insertionSort
          (fun a b => b.event_time ≤ a.event_time))
      have hp := hsorted
      rw [← hsplit] at hp hrs
      rcases List.mem_append.mp hrs with hin | hin
      · exact absurd hin hnot
      · exact (List.pairwise_append.mp hp).2.2 r' hr' r hin

/-- C8 witness: a concrete three-row store queried for "STEVE" returns the
two case-insensitive matches newest first; the second returned row is a
stored row matching the name, per the theorem. -/
theorem c8_witness :
    debug_player_events
        [⟨0, "Steve", .join, 5⟩, ⟨1, "steve", .leave, 9⟩, ⟨2, "Alex", .join, 7⟩]
        "STEVE" = [⟨1, "steve", .leave, 9⟩, ⟨0, "Steve", .join, 5⟩] ∧
      ((⟨0, "Steve", .join, 5⟩ : EventRow) ∈
          [(⟨0, "Steve", .join, 5⟩ : EventRow), ⟨1, "steve", .leave, 9⟩,
            ⟨2, "Alex", .join, 7⟩] ∧
        sqliteLower "Steve" = sqliteLower "STEVE") := by
  refine ⟨by decide, ?_⟩
  exact (c8_debug_events
    [⟨0, "Steve", .join, 5⟩, ⟨1, "steve", .leave, 9⟩, ⟨2, "Alex", .join, 7⟩]
    "STEVE").2.2.1 ⟨0, "Steve", .join, 5⟩ (by decide)

/-! ## Claim C9: independent leaderboards -/

/-- C9: the leaderboards are three independently sorted top-10 lists, each
sorted by value descending with at most 10 entries; every playtime entry
comes from a cached player with strictly positive playtime (no
zero-filling: a player without playtime data never appears there), and
every blocks/distance entry comes from a cached player; in particular, for
a cache holding only "Miner" with 5 blocks and zero playtime, "Miner"
appears in the blocks leaderboard and not in the playtime leaderboard. -/
theorem c9_leaderboards (ps : List (String × PlayerStats)) :
    (List.Sorted (fun a b : LBEntry => b.value ≤ a.value)
        (get_leaderboards ps).playtime ∧
      List.Sorted (fun a b : LBEntry => b.value ≤ a.value)
        (get_leaderboards ps).blocks ∧
      List.Sorted (fun a b : LBEntry => b.value ≤ a.value)
        (get_leaderboards ps).distance) ∧
      ((get_leaderboards ps).playtime.length ≤ 10 ∧
        (get_leaderboards ps).blocks.length ≤ 10 ∧
        (get_leaderboards ps).distance.length ≤ 10) ∧
      (∀ e ∈ (get_leaderboards ps).playtime,
        ∃ s, (e.name, s) ∈ ps ∧ 0 < s.play_time_seconds) ∧
      (∀ e ∈ (get_leaderboards ps).blocks, ∃ s, (e.name, s) ∈ ps) ∧
      (∀ e ∈ (get_leaderboards ps).distance, ∃ s, (e.name, s) ∈ ps) ∧
      ((∃ e ∈ (get_leaderboards [("Miner", ⟨5, 0, 0⟩)]).blocks,
          e.name = "Miner") ∧
        ∀ e ∈ (get_leaderboards [("Miner", ⟨5, 0, 0⟩)]).playtime,
          e.name ≠ "Miner") := by
  haveI ht : IsTotal LBEntry (fun a b => b.value ≤ a.value) :=
    ⟨fun a b => le_total b.value a.value⟩
  haveI htr : IsTrans LBEntry (fun a b => b.value ≤ a.value) :=
    ⟨fun a b c h1 h2 => le_trans h2 h1⟩
  refine ⟨⟨?_, ?_, ?_⟩, ⟨?_, ?_, ?_⟩, ?_, ?_, ?_, by decide⟩
  · exact List.Pairwise.sublist (List.take_sublist _ _)
      (List.sorted_insertionSort _ _)
  · exact List.Pairwise.sublist (List.take_sublist _ _)
      (List.sorted_insertionSort _ _)
  · exact List.Pairwise.sublist (List.take_sublist _ _)
      (List.sorted_insertionSort _ _)
  · unfold get_leaderboards; dsimp only
    rw [List.length_take]; exact min_le_left _ _
  · unfold get_leaderboards; dsimp only
    rw [List.length_take]; exact min_le_left _ _
  · unfold get_leaderboards; dsimp only
    rw [List.length_take]; exact min_le_left _ _
  · intro e he
    have h1 := (List.mem_insertionSort _).mp (List.take_subset _ _ he)
    rcases List.mem_map.mp h1 with ⟨q, hq, rfl⟩
    have h2 := List.mem_filter.mp hq
    exact ⟨q.2, h2.1, by simpa using h2.2⟩
  · intro e he
    have h1 := (List.mem_insertionSort _).mp (List.take_subset _ _ he)
    rcases List.mem_map.mp h1 with ⟨q, hq, rfl⟩
    exact ⟨q.2, hq⟩
  · intro e he
    have h1 := (List.mem_insertionSort _).mp (List.take_subset _ _ he)
    rcases List.mem_map.mp h1 with ⟨q, hq, rfl⟩
    exact ⟨q.2, hq⟩

/-- C9 witness: on a two-player cache, the playtime entry for "Walker"
(playtime 3) indeed traces back to a cached player with positive playtime,
and "Miner" (zero playtime, 5 blocks) is on the blocks board only. -/
theorem c9_witness :
    (∃ s : PlayerStats,
        (("Walker", s) ∈
          [("Miner", (⟨5, 0, 0⟩ : PlayerStats)), ("Walker", ⟨1, 2, 3⟩)]) ∧
          0 < s.play_time_seconds) ∧
      ((∃ e ∈ (get_leaderboards [("Miner", ⟨5, 0, 0⟩)]).blocks,
          e.name = "Miner") ∧
        ∀ e ∈ (get_leaderboards [("Miner", ⟨5, 0, 0⟩)]).playtime,
          e.name ≠ "Miner") := by
  have h := c9_leaderboards [("Miner", ⟨5, 0, 0⟩), ("Walker", ⟨1, 2, 3⟩)]
  refine ⟨?_, h.2.2.2.2.2⟩
  exact h.2.2.1 ⟨"Walker", 3, "3s"⟩ (by decide)

end MCDash
